import Mathlib

/-!
Verification of the event-ingestion and LTV-aggregation pipeline in
`src/shutterfly_main.py` against its specification.

Shallow-embedding conventions (all stated relative to the Python source):

* The SQLite store (an in-memory database with `pragma foreign_keys = 1`) is
  embedded as four lists of rows, one per table, in insertion (rowid) order.
  `INSERT` succeeds exactly when the primary key is fresh and, for the three
  dependent tables, the referenced `customer_id` exists in `Customer`
  (foreign-key enforcement); a failing `INSERT` raises an exception that each
  ingester catches, logging a warning and leaving the store unchanged.
* `event_time` values are ISO-8601 strings in the source; SQL `max`/`min` on
  them is lexicographic, which agrees with chronological order, and
  `julianday` converts them to a (fractional) day count.  We embed an
  `event_time` directly as its julian-day value `ℚ`; the empty string `''`
  (an absent field) is embedded as `none` — it sorts below every timestamp
  and `julianday('')` is SQL NULL, matching `otLE` below.
* `total_amount` is embedded as its numeric value `ℚ`, `none` standing for an
  empty field (SQLite sums it as 0 while still producing a float result).
* Event payloads are the JSON objects described in the spec's interface
  section: a flat record of the union of the per-type fields, where a field
  that is absent from a given event is the empty value (`""` / `none`).
* Warnings written through `logging.warning` are collected in a log list,
  one constructor per call site in the source.
-/

namespace Shutterfly

/-- Row of the `Customer` table (`customer_id TEXT PRIMARY KEY`). -/
structure CustomerRow where
  customer_id : String
  event_time : Option ℚ
  last_name : String
  adr_city : String
  adr_state : String
deriving DecidableEq, Repr

/-- Row of the `SiteVisit` table (`page_id TEXT PRIMARY KEY`,
foreign key `customer_id` into `Customer`). -/
structure SiteVisitRow where
  page_id : String
  event_time : Option ℚ
  customer_id : String
  tags : String
deriving DecidableEq, Repr

/-- Row of the `ImageUploaded` table (`image_id TEXT PRIMARY KEY`,
foreign key `customer_id` into `Customer`). -/
structure ImageRow where
  image_id : String
  event_time : Option ℚ
  customer_id : String
  camera_make : String
  camera_model : String
deriving DecidableEq, Repr

/-- Row of the `Orders` table (`order_id TEXT PRIMARY KEY`,
foreign key `customer_id` into `Customer`). -/
structure OrderRow where
  order_id : String
  event_time : Option ℚ
  customer_id : String
  total_amount : Option ℚ
deriving DecidableEq, Repr

/-- Row of the derived `customer_LTV` table. -/
structure LTVRow where
  customer_id : String
  NoofVisits : ℕ
  total_expenditure : ℚ
  ExpenditurePerVisit : ℚ
  SiteVisitsPerWeek : ℚ
  NoOfWeeks : ℚ
  CLV : ℚ
deriving DecidableEq, Repr

/-- The four base tables created by `create_tables`, in insertion order. -/
structure DB where
  customer : List CustomerRow
  siteVisit : List SiteVisitRow
  imageUploaded : List ImageRow
  orders : List OrderRow
deriving DecidableEq, Repr

/-- The freshly created empty schema. -/
def DB.empty : DB := ⟨[], [], [], []⟩

/-- One `logging.warning` call, by call site in the source. -/
inductive LogEntry where
  | customerWarn (key : String)
  | siteVisitWarn (key : String)
  | imageWarn (key : String)
  | orderWarn (key : String)
deriving DecidableEq, Repr

/-- Store plus warning log, the state threaded through ingestion. -/
structure St where
  db : DB
  log : List LogEntry
deriving DecidableEq, Repr

/-- The initial state: empty tables, empty log. -/
def initSt : St := ⟨DB.empty, []⟩

/-- An incoming event object: the union of the per-type JSON payload fields
(`type` plus `key`, with `verb` on CUSTOMER/ORDER events); a field that does
not belong to the event's type is the empty value. -/
structure Event where
  type : String
  verb : String
  key : String
  event_time : Option ℚ
  last_name : String
  adr_city : String
  adr_state : String
  customer_id : String
  tags : String
  camera_make : String
  camera_model : String
  total_amount : Option ℚ
deriving DecidableEq, Repr

/-- The all-empty event, basis for concrete test events. -/
def e0 : Event :=
  { type := "", verb := "", key := "", event_time := none, last_name := "",
    adr_city := "", adr_state := "", customer_id := "", tags := "",
    camera_make := "", camera_model := "", total_amount := none }

/-- Append a warning to the log, leaving the store untouched
(`logging.warning(warning_string)` inside an `except` block). -/
def logWarn (st : St) (w : LogEntry) : St := { st with log := st.log ++ [w] }

/-- A customer UPDATE event in which every updatable field is empty: the
field loop adds nothing, `query[:-1]` then truncates `"Update customer SET "`
into malformed SQL, and `db_cursor.execute` raises, so the `except` logs a
warning and nothing is written. -/
def custUpdAllEmpty (e : Event) : Prop :=
  e.event_time = none ∧ e.last_name = "" ∧ e.adr_city = "" ∧ e.adr_state = ""

instance (e : Event) : Decidable (custUpdAllEmpty e) := by
  unfold custUpdAllEmpty; infer_instance

/-- The row produced by applying a customer UPDATE to a matching row: each
payload field other than `type`, `verb`, `key` is written exactly when its
value is non-empty (the `value != ''` filter in the field loop). -/
def applyCustomerUpdate (r : CustomerRow) (e : Event) : CustomerRow :=
  { r with
    event_time := if e.event_time = none then r.event_time else e.event_time
    last_name := if e.last_name = "" then r.last_name else e.last_name
    adr_city := if e.adr_city = "" then r.adr_city else e.adr_city
    adr_state := if e.adr_state = "" then r.adr_state else e.adr_state }

/-- `customer_ingest`: NEW inserts (failing with a logged warning on a
primary-key conflict), UPDATE writes the non-empty non-identity fields of the
payload to the rows whose `customer_id` equals the event's `key` (zero rows
when the key is absent); any other verb falls through both branches. -/
def customer_ingest (st : St) (e : Event) : St :=
  if e.verb = "NEW" then
    if ∃ r ∈ st.db.customer, r.customer_id = e.key then
      logWarn st (.customerWarn e.key)
    else
      { st with db := { st.db with customer := st.db.customer ++
          [⟨e.key, e.event_time, e.last_name, e.adr_city, e.adr_state⟩] } }
  else if e.verb = "UPDATE" then
    if custUpdAllEmpty e then
      logWarn st (.customerWarn e.key)
    else
      { st with db := { st.db with customer := (st.db.customer.map
          (fun r => if r.customer_id = e.key then applyCustomerUpdate r e else r)) } }
  else st

/-- `sitevisit_ingest`: insert-only; the INSERT fails (warning logged, store
unchanged) on a `page_id` primary-key conflict or when the referenced
customer does not exist (foreign-key check, `pragma foreign_keys = 1`). -/
def sitevisit_ingest (st : St) (e : Event) : St :=
  if (∃ r ∈ st.db.siteVisit, r.page_id = e.key) ∨
      ¬ (∃ c ∈ st.db.customer, c.customer_id = e.customer_id) then
    logWarn st (.siteVisitWarn e.key)
  else
    { st with db := { st.db with siteVisit := st.db.siteVisit ++
        [⟨e.key, e.event_time, e.customer_id, e.tags⟩] } }

/-- `imageuploded_ingest`: insert-only, with the same primary-key and
foreign-key failure modes as `sitevisit_ingest`. -/
def imageuploded_ingest (st : St) (e : Event) : St :=
  if (∃ r ∈ st.db.imageUploaded, r.image_id = e.key) ∨
      ¬ (∃ c ∈ st.db.customer, c.customer_id = e.customer_id) then
    logWarn st (.imageWarn e.key)
  else
    { st with db := { st.db with imageUploaded := st.db.imageUploaded ++
        [⟨e.key, e.event_time, e.customer_id, e.camera_make, e.camera_model⟩] } }

/-- An order UPDATE event in which every updatable field is empty (the field
loop also excludes `customer_id`): malformed SQL, caught, warning logged. -/
def orderUpdAllEmpty (e : Event) : Prop :=
  e.event_time = none ∧ e.total_amount = none

instance (e : Event) : Decidable (orderUpdAllEmpty e) := by
  unfold orderUpdAllEmpty; infer_instance

/-- The row produced by applying an order UPDATE to a matching row: the field
loop excludes `type`, `verb`, `key` and also `customer_id`, so only
`event_time` and `total_amount` can be written, each when non-empty. -/
def applyOrderUpdate (r : OrderRow) (e : Event) : OrderRow :=
  { r with
    event_time := if e.event_time = none then r.event_time else e.event_time
    total_amount := if e.total_amount = none then r.total_amount else e.total_amount }

/-- `order_ingest`: NEW inserts, failing (warning logged, store unchanged) on
an `order_id` primary-key conflict or a missing referenced customer; UPDATE
writes the non-empty fields other than `type`, `verb`, `key`, `customer_id`
to the rows whose `order_id` equals the event's `key`. -/
def order_ingest (st : St) (e : Event) : St :=
  if e.verb = "NEW" then
    if (∃ r ∈ st.db.orders, r.order_id = e.key) ∨
        ¬ (∃ c ∈ st.db.customer, c.customer_id = e.customer_id) then
      logWarn st (.orderWarn e.key)
    else
      { st with db := { st.db with orders := st.db.orders ++
          [⟨e.key, e.event_time, e.customer_id, e.total_amount⟩] } }
  else if e.verb = "UPDATE" then
    if orderUpdAllEmpty e then
      logWarn st (.orderWarn e.key)
    else
      { st with db := { st.db with orders := (st.db.orders.map
          (fun r => if r.order_id = e.key then applyOrderUpdate r e else r)) } }
  else st

/-- One iteration of the dispatch loop in `Ingest`: route on the `type`
discriminator, skipping unknown types. -/
def ingest_step (st : St) (e : Event) : St :=
  if e.type = "CUSTOMER" then customer_ingest st e
  else if e.type = "SITE_VISIT" then sitevisit_ingest st e
  else if e.type = "IMAGE" then imageuploded_ingest st e
  else if e.type = "ORDER" then order_ingest st e
  else st

/-- The sequential dispatch loop of `Ingest` over the ordered event list. -/
def processEvents (st : St) (events : List Event) : St :=
  events.foldl ingest_step st

/-- Ordering used by SQL `max`/`min` over the stored `event_time` text
values: the empty string (embedded `none`) sorts below every timestamp, and
lexicographic order on ISO-8601 timestamps is chronological order. -/
def otLE : Option ℚ → Option ℚ → Bool
  | none, _ => true
  | some _, none => false
  | some a, some b => decide (a ≤ b)

/-- Running-maximum step under `otLE`. -/
def maxStep (m u : Option ℚ) : Option ℚ := if otLE m u then u else m

/-- Running-minimum step under `otLE`. -/
def minStep (m u : Option ℚ) : Option ℚ := if otLE u m then u else m

/-- SQL aggregate `max(event_time)` over a column: `none` (NULL result) only
when there are no rows. -/
def aggMax : List (Option ℚ) → Option (Option ℚ)
  | [] => none
  | t :: ts => some (ts.foldl maxStep t)

/-- SQL aggregate `min(event_time)` over a column: `none` (NULL result) only
when there are no rows. -/
def aggMin : List (Option ℚ) → Option (Option ℚ)
  | [] => none
  | t :: ts => some (ts.foldl minStep t)

/-- The SiteVisit rows of one customer
(`Select ... from SiteVisit where customer_id="..."`). -/
def visitsOf (db : DB) (cid : String) : List SiteVisitRow :=
  db.siteVisit.filter (fun r => r.customer_id = cid)

/-- Their `event_time` column. -/
def visitTimes (db : DB) (cid : String) : List (Option ℚ) :=
  (visitsOf db cid).map (fun r => r.event_time)

/-- The Orders rows of one customer. -/
def ordersOf (db : DB) (cid : String) : List OrderRow :=
  db.orders.filter (fun r => r.customer_id = cid)

/-- `Select count(*) from SiteVisit where customer_id="..."`. -/
def NoOfVisits (db : DB) (cid : String) : ℕ :=
  (visitsOf db cid).length

/-- `Select sum(total_amount) from Orders where customer_id="..."`: NULL
(`none`, a Python `None`) when the customer has no order rows, otherwise a
float (`some`) — an empty-text amount is summed as 0 but still forces a
float result. -/
def totalExpenditure (db : DB) (cid : String) : Option ℚ :=
  if (ordersOf db cid).isEmpty then none
  else some (((ordersOf db cid).map (fun r => r.total_amount.getD 0)).sum)

/-- `(julianday(max(event_time)) - julianday(min(event_time)))/7` over a
customer's SiteVisit rows: NULL (`none`) when there are no rows or when the
extremal stored value is the empty string (whose `julianday` is NULL). -/
def NoOfWeeks (db : DB) (cid : String) : Option ℚ :=
  match aggMax (visitTimes db cid), aggMin (visitTimes db cid) with
  | some (some M), some (some m) => some ((M - m) / 7)
  | _, _ => none

/-- Python 2 `int()` applied to a float: truncation toward zero. -/
def ratTrunc (q : ℚ) : ℤ :=
  if 0 ≤ q then q.floor else -((-q).floor)

/-- The per-customer body of the loop in `build_LTV_table`: the guard
`NoOfVisits != 0 and NoOfWeeks != float(0) and type(total_expenditure)==float`,
then the metric computations inside the inner `try`.  When `NoOfWeeks` is
NULL (Python `None`) the guard passes, but `NoOfVisits / NoOfWeeks` raises a
TypeError that the inner `except` catches: the customer is skipped. -/
def computeLTV (db : DB) (cid : String) : Option LTVRow :=
  if NoOfVisits db cid ≠ 0 ∧ NoOfWeeks db cid ≠ some 0 ∧
      totalExpenditure db cid ≠ none then
    match totalExpenditure db cid, NoOfWeeks db cid with
    | some t, some wq =>
        some { customer_id := cid
               NoofVisits := NoOfVisits db cid
               total_expenditure := t
               ExpenditurePerVisit := t / (NoOfVisits db cid : ℚ)
               SiteVisitsPerWeek := (NoOfVisits db cid : ℚ) / wq
               NoOfWeeks := wq
               CLV := (52 * ((ratTrunc (t / (NoOfVisits db cid : ℚ)) : ℤ) : ℚ) *
                 ((NoOfVisits db cid : ℚ) / wq)) * 10 }
    | _, _ => none
  else none

/-- `build_LTV_table`: loop over `Select distinct(customer_id) from customer`
(first-occurrence order) and insert one `customer_LTV` row per customer that
survives the guard and the inner `try`. -/
def build_LTV_table (db : DB) : List LTVRow :=
  ((db.customer.map (fun r => r.customer_id)).dedup).filterMap (computeLTV db)

/-- `TopXSimpleLTVCustomers`:
`select customer_id,CLV from customer_LTV order by CLV desc limit N`. -/
def TopXSimpleLTVCustomers (top_n : ℕ) (ltv : List LTVRow) : List (String × ℚ) :=
  (((ltv.insertionSort (fun a b => b.CLV ≤ a.CLV)).map
      (fun r => (r.customer_id, r.CLV))).take top_n)

/-- The pipeline of `main`: ingest the ordered event sequence into a fresh
store, build the analytics table, query the top N. -/
def runPipeline (events : List Event) (top_n : ℕ) : List (String × ℚ) :=
  TopXSimpleLTVCustomers top_n (build_LTV_table (processEvents initSt events).db)

/-- The warning entry produced when a dependent-entity insert is rejected. -/
def rejectWarn (e : Event) : LogEntry :=
  if e.type = "SITE_VISIT" then .siteVisitWarn e.key
  else if e.type = "IMAGE" then .imageWarn e.key
  else .orderWarn e.key

/-- A store with one customer who has two visits seven days apart and one
order of amount 10: eligible for an LTV row. -/
def dbW : DB :=
  { customer := [⟨"c", none, "Ln", "Ct", "Sa"⟩]
    siteVisit := [⟨"p1", some 0, "c", "[]"⟩, ⟨"p2", some 7, "c", "[]"⟩]
    imageUploaded := []
    orders := [⟨"o1", some 0, "c", some 10⟩] }

/-- The LTV row the aggregation produces for `dbW`. -/
def rW : LTVRow := ⟨"c", 2, 10, 5, 2, 1, 5200⟩

/-- Like `dbW` but with a negative order amount, so that the expenditure per
visit is `-3/4`: truncation toward zero and floor disagree. -/
def dbNeg : DB :=
  { customer := [⟨"c", none, "Ln", "Ct", "Sa"⟩]
    siteVisit := [⟨"p1", some 0, "c", "[]"⟩, ⟨"p2", some 7, "c", "[]"⟩]
    imageUploaded := []
    orders := [⟨"o1", some 0, "c", some (-(3/2))⟩] }

/-- The LTV row the aggregation produces for `dbNeg`. -/
def cexRow : LTVRow := ⟨"c", 2, -(3/2), -(3/4), 2, 1, 0⟩

/-- A state holding a single customer row `c1` with last name A, city X. -/
def stA : St := ⟨⟨[⟨"c1", none, "A", "X", ""⟩], [], [], []⟩, []⟩

/-- A state holding customer `c1` and one of their orders `o1`. -/
def stB : St := ⟨⟨[⟨"c1", none, "A", "X", ""⟩], [], [], [⟨"o1", none, "c1", some 1⟩]⟩, []⟩

/-- Customer NEW event with last name A and city X. -/
def evNewA : Event :=
  { e0 with type := "CUSTOMER", verb := "NEW", key := "c1", last_name := "A", adr_city := "X" }

/-- Customer UPDATE event carrying only city Y. -/
def evUpdY : Event :=
  { e0 with type := "CUSTOMER", verb := "UPDATE", key := "c1", adr_city := "Y" }

/-- An event with an unknown type discriminator. -/
def evUnknown : Event := { e0 with type := "EMAIL", key := "k1" }

/-- A site-visit event referencing a customer that was never inserted. -/
def evC1 : Event := { e0 with type := "SITE_VISIT", key := "p9", customer_id := "ghost" }

/-- A customer NEW event re-using the already-present key `c1`. -/
def evC9 : Event := { e0 with type := "CUSTOMER", verb := "NEW", key := "c1", last_name := "B" }

/-- A customer UPDATE event whose key matches no row. -/
def evC7 : Event := { e0 with type := "CUSTOMER", verb := "UPDATE", key := "nope", adr_city := "Z" }

/-- An order UPDATE event carrying a non-empty customer_id. -/
def evC8 : Event :=
  { e0 with
    type := "ORDER"
    verb := "UPDATE"
    key := "o1"
    customer_id := "evil"
    total_amount := some 3 }

/-- An order UPDATE event in which every non-identity field is empty. -/
def evC10 : Event := { e0 with type := "ORDER", verb := "UPDATE", key := "o1" }

theorem otLE_refl (a : Option ℚ) : otLE a a = true := by
  cases a
  · rfl
  · simp [otLE]

theorem otLE_total (a b : Option ℚ) : otLE a b = true ∨ otLE b a = true :=
  match a, b with
  | none, _ => Or.inl rfl
  | some _, none => Or.inr rfl
  | some x, some y => by simpa [otLE] using le_total x y

theorem otLE_trans {a b c : Option ℚ} (h1 : otLE a b = true) (h2 : otLE b c = true) :
    otLE a c = true :=
  match a, b, c with
  | none, _, _ => rfl
  | some _, none, _ => by simp [otLE] at h1
  | some _, some _, none => by simp [otLE] at h2
  | some x, some y, some z => by
      simp only [otLE, decide_eq_true_eq] at h1 h2 ⊢
      exact le_trans h1 h2

theorem foldl_minStep_mem (ts : List (Option ℚ)) (a : Option ℚ) :
    List.foldl minStep a ts ∈ a :: ts := by
  induction ts generalizing a with
  | nil => simp [List.foldl]
  | cons u ts ih =>
    simp only [List.foldl]
    rcases List.mem_cons.mp (ih (minStep a u)) with h1 | h2
    · rw [h1]
      unfold minStep
      split
      · exact List.mem_cons_of_mem _ (List.mem_cons_self _ _)
      · exact List.mem_cons_self _ _
    · exact List.mem_cons_of_mem _ (List.mem_cons_of_mem _ h2)

theorem foldl_maxStep_mem (ts : List (Option ℚ)) (a : Option ℚ) :
    List.foldl maxStep a ts ∈ a :: ts := by
  induction ts generalizing a with
  | nil => simp [List.foldl]
  | cons u ts ih =>
    simp only [List.foldl]
    rcases List.mem_cons.mp (ih (maxStep a u)) with h1 | h2
    · rw [h1]
      unfold maxStep
      split
      · exact List.mem_cons_of_mem _ (List.mem_cons_self _ _)
      · exact List.mem_cons_self _ _
    · exact List.mem_cons_of_mem _ (List.mem_cons_of_mem _ h2)

theorem foldl_minStep_le (ts : List (Option ℚ)) :
    ∀ a t : Option ℚ, t ∈ a :: ts → otLE (List.foldl minStep a ts) t = true := by
  induction ts with
  | nil =>
    intro a t ht
    rcases List.mem_cons.mp ht with h1 | h1
    · rw [h1]; simp [List.foldl, otLE_refl]
    · simp at h1
  | cons u ts ih =>
    intro a t ht
    simp only [List.foldl]
    have hhead : otLE (List.foldl minStep (minStep a u) ts) (minStep a u) = true :=
      ih (minStep a u) (minStep a u) (List.mem_cons_self _ _)
    have hstep : otLE (minStep a u) a = true ∧ otLE (minStep a u) u = true := by
      constructor
      · by_cases h : otLE u a = true
        · simp [minStep, h]
        · simp [minStep, h, otLE_refl]
      · by_cases h : otLE u a = true
        · simp [minStep, h, otLE_refl]
        · rcases otLE_total u a with h2 | h2
          · exact absurd h2 h
          · simpa [minStep, h] using h2
    rcases List.mem_cons.mp ht with h1 | h1
    · rw [h1]; exact otLE_trans hhead hstep.1
    · rcases List.mem_cons.mp h1 with h2 | h2
      · rw [h2]; exact otLE_trans hhead hstep.2
      · exact ih (minStep a u) t (List.mem_cons_of_mem _ h2)

/-- Inversion for `NoOfWeeks`: a non-NULL week count comes from parseable
extremal timestamps, equals their day distance divided by 7, and the
minimum is at most the maximum. -/
theorem noOfWeeks_some {db : DB} {cid : String} {w : ℚ}
    (h : NoOfWeeks db cid = some w) :
    ∃ M m, aggMax (visitTimes db cid) = some (some M) ∧
      aggMin (visitTimes db cid) = some (some m) ∧ w = (M - m) / 7 ∧ m ≤ M := by
  unfold NoOfWeeks at h
  split at h
  case _ M m hM hm =>
    refine ⟨M, m, hM, hm, (Option.some_injective _ h).symm, ?_⟩
    rcases hts : visitTimes db cid with _ | ⟨t, ts⟩
    · rw [hts] at hM; simp [aggMax] at hM
    · rw [hts] at hM hm
      simp only [aggMax, aggMin, Option.some_injective] at hM hm
      have hM' : List.foldl maxStep t ts = some M := by
        exact Option.some_injective _ hM
      have hm' : List.foldl minStep t ts = some m := by
        exact Option.some_injective _ hm
      have hmem : List.foldl maxStep t ts ∈ t :: ts := foldl_maxStep_mem ts t
      rw [hM'] at hmem
      have hle : otLE (List.foldl minStep t ts) (some M) = true :=
        foldl_minStep_le ts t (some M) hmem
      rw [hm'] at hle
      simpa [otLE] using hle
  case _ => exact absurd h (by simp)

/-- A non-NULL week count is nonnegative. -/
theorem noOfWeeks_nonneg {db : DB} {cid : String} {w : ℚ}
    (h : NoOfWeeks db cid = some w) : 0 ≤ w := by
  obtain ⟨M, m, _, _, hw, hle⟩ := noOfWeeks_some h
  rw [hw]
  have : (0 : ℚ) ≤ M - m := sub_nonneg.mpr hle
  positivity

/-- The expenditure sum is NULL exactly when the customer has no orders. -/
theorem totalExpenditure_eq_none_iff (db : DB) (cid : String) :
    totalExpenditure db cid = none ↔ ordersOf db cid = [] := by
  unfold totalExpenditure
  split
  next h => simpa using h
  next h => simpa using h

/-- A produced LTV row names the customer the loop iteration ran for. -/
theorem computeLTV_customer_id {db : DB} {cid : String} {r : LTVRow}
    (h : computeLTV db cid = some r) : r.customer_id = cid := by
  unfold computeLTV at h
  split at h
  · split at h
    · cases h; rfl
    · exact absurd h (by simp)
  · exact absurd h (by simp)

/-- The eligibility characterization of `computeLTV`: a row is produced
exactly when the customer has a SiteVisit row, a strictly positive non-NULL
week count, and at least one order. -/
theorem computeLTV_isSome_iff (db : DB) (cid : String) :
    (computeLTV db cid).isSome = true ↔
      (visitsOf db cid ≠ [] ∧ (∃ w, NoOfWeeks db cid = some w ∧ 0 < w) ∧
        ordersOf db cid ≠ []) := by
  rcases hte : totalExpenditure db cid with _ | t
  · have hord : ordersOf db cid = [] := (totalExpenditure_eq_none_iff db cid).mp hte
    unfold computeLTV
    rw [hte]
    simp [hord]
  · have hord : ordersOf db cid ≠ [] := by
      intro h0
      rw [(totalExpenditure_eq_none_iff db cid).mpr h0] at hte
      exact Option.noConfusion hte
    rcases hw : NoOfWeeks db cid with _ | wq
    · unfold computeLTV
      rw [hte, hw]
      simp
    · have hwnn : 0 ≤ wq := noOfWeeks_nonneg hw
      unfold computeLTV
      rw [hte, hw]
      by_cases hv : NoOfVisits db cid = 0
      · have hvis : visitsOf db cid = [] := List.length_eq_zero.mp hv
        simp [hv, hvis]
      · have hvis : visitsOf db cid ≠ [] := by
          intro h0
          exact hv (by simp [NoOfVisits, h0])
        by_cases hwz : wq = 0
        · subst hwz
          simp [hv, hvis, hw]
        · have hpos : 0 < wq := lt_of_le_of_ne hwnn (Ne.symm hwz)
          simp [hv, hvis, hwz, hord]
          exact hpos

/-- Membership in the analytics table, reduced to the per-customer loop. -/
theorem mem_build_LTV_iff (db : DB) (cid : String) :
    (∃ r ∈ build_LTV_table db, r.customer_id = cid) ↔
      (cid ∈ db.customer.map (fun r => r.customer_id) ∧
        (computeLTV db cid).isSome = true) := by
  unfold build_LTV_table
  constructor
  · rintro ⟨r, hr, hid⟩
    rcases List.mem_filterMap.mp hr with ⟨c, hc, hfc⟩
    have hcc : r.customer_id = c := computeLTV_customer_id hfc
    rw [hid] at hcc
    subst hcc
    exact ⟨List.mem_dedup.mp hc, by simp [hfc]⟩
  · rintro ⟨hmem, hsome⟩
    rcases Option.isSome_iff_exists.mp hsome with ⟨r, hr⟩
    exact ⟨r, List.mem_filterMap.mpr ⟨cid, List.mem_dedup.mpr hmem, hr⟩,
      computeLTV_customer_id hr⟩

theorem ingest_step_customer {st : St} {e : Event} (h : e.type = "CUSTOMER") :
    ingest_step st e = customer_ingest st e := by
  simp [ingest_step, h]

theorem ingest_step_site {st : St} {e : Event} (h : e.type = "SITE_VISIT") :
    ingest_step st e = sitevisit_ingest st e := by
  simp [ingest_step, h]

theorem ingest_step_image {st : St} {e : Event} (h : e.type = "IMAGE") :
    ingest_step st e = imageuploded_ingest st e := by
  simp [ingest_step, h]

theorem ingest_step_order {st : St} {e : Event} (h : e.type = "ORDER") :
    ingest_step st e = order_ingest st e := by
  simp [ingest_step, h]

theorem ingest_step_unknown {st : St} {e : Event} (h1 : e.type ≠ "CUSTOMER")
    (h2 : e.type ≠ "SITE_VISIT") (h3 : e.type ≠ "IMAGE") (h4 : e.type ≠ "ORDER") :
    ingest_step st e = st := by
  simp [ingest_step, h1, h2, h3, h4]

/-- Claim C4: for every ordered event sequence, handling one event never
aborts the ones after it — the dispatch loop is total and strictly
sequential, each event is routed to the ingester matching its type
discriminator, and events with an unknown type are skipped without any
effect. -/
theorem C4_dispatcher (st : St) (e : Event) (rest : List Event) :
    processEvents st (e :: rest) = processEvents (ingest_step st e) rest ∧
    (e.type ≠ "CUSTOMER" → e.type ≠ "SITE_VISIT" → e.type ≠ "IMAGE" →
      e.type ≠ "ORDER" → ingest_step st e = st) ∧
    (e.type = "CUSTOMER" → ingest_step st e = customer_ingest st e) ∧
    (e.type = "SITE_VISIT" → ingest_step st e = sitevisit_ingest st e) ∧
    (e.type = "IMAGE" → ingest_step st e = imageuploded_ingest st e) ∧
    (e.type = "ORDER" → ingest_step st e = order_ingest st e) :=
  ⟨rfl, fun h1 h2 h3 h4 => ingest_step_unknown h1 h2 h3 h4,
   fun h => ingest_step_customer h, fun h => ingest_step_site h,
   fun h => ingest_step_image h, fun h => ingest_step_order h⟩

theorem C4_dispatcher_witness :
    processEvents initSt (evUnknown :: [evNewA]) =
      processEvents (ingest_step initSt evUnknown) [evNewA] ∧
    ingest_step initSt evUnknown = initSt :=
  ⟨(C4_dispatcher initSt evUnknown [evNewA]).1,
   (C4_dispatcher initSt evUnknown [evNewA]).2.1 (by decide) (by decide)
     (by decide) (by decide)⟩

/-- Claim C1: a SITE_VISIT, IMAGE, or ORDER NEW event whose customer_id is
not in the Customer collection at the moment it is processed inserts
nothing — the whole store is unchanged — a rejection warning is logged, and
the loop continues with the remaining events. -/
theorem C1_referential_integrity (st : St) (e : Event) (rest : List Event)
    (htype : e.type = "SITE_VISIT" ∨ e.type = "IMAGE" ∨
      (e.type = "ORDER" ∧ e.verb = "NEW"))
    (habs : ¬ ∃ c ∈ st.db.customer, c.customer_id = e.customer_id) :
    (ingest_step st e).db = st.db ∧
    (ingest_step st e).log = st.log ++ [rejectWarn e] ∧
    processEvents st (e :: rest) = processEvents (ingest_step st e) rest := by
  have hstep : ingest_step st e = logWarn st (rejectWarn e) := by
    rcases htype with h | h | ⟨h, hv⟩
    · rw [ingest_step_site h]
      unfold sitevisit_ingest
      rw [if_pos (Or.inr habs)]
      simp [rejectWarn, h]
    · rw [ingest_step_image h]
      unfold imageuploded_ingest
      rw [if_pos (Or.inr habs)]
      simp [rejectWarn, h]
    · rw [ingest_step_order h]
      unfold order_ingest
      rw [if_pos hv, if_pos (Or.inr habs)]
      simp [rejectWarn, h]
  exact ⟨by rw [hstep]; rfl, by rw [hstep]; simp [logWarn], rfl⟩

theorem C1_referential_integrity_witness :
    (¬ ∃ c ∈ initSt.db.customer, c.customer_id = evC1.customer_id) ∧
    (ingest_step initSt evC1).db = initSt.db ∧
    (ingest_step initSt evC1).log = initSt.log ++ [rejectWarn evC1] :=
  ⟨by decide,
   (C1_referential_integrity initSt evC1 [] (Or.inl rfl) (by decide)).1,
   (C1_referential_integrity initSt evC1 [] (Or.inl rfl) (by decide)).2.1⟩

/-- Claim C9: a Customer NEW or Order NEW event whose key is already the
primary key of a row in its table does not overwrite that row — the insert
fails against primary-key uniqueness, the store (hence every field of the
existing row) is unchanged, a warning is logged, and processing continues
with the next event. -/
theorem C9_duplicate_new (st : St) (e : Event) (rest : List Event)
    (hverb : e.verb = "NEW")
    (htype : (e.type = "CUSTOMER" ∧ ∃ r ∈ st.db.customer, r.customer_id = e.key) ∨
      (e.type = "ORDER" ∧ ∃ r ∈ st.db.orders, r.order_id = e.key)) :
    (ingest_step st e).db = st.db ∧
    (ingest_step st e).log = st.log ++
      [if e.type = "CUSTOMER" then LogEntry.customerWarn e.key
       else LogEntry.orderWarn e.key] ∧
    processEvents st (e :: rest) = processEvents (ingest_step st e) rest := by
  have hstep : ingest_step st e = logWarn st
      (if e.type = "CUSTOMER" then LogEntry.customerWarn e.key
       else LogEntry.orderWarn e.key) := by
    rcases htype with ⟨h, hdup⟩ | ⟨h, hdup⟩
    · rw [ingest_step_customer h]
      unfold customer_ingest
      rw [if_pos hverb, if_pos hdup]
      simp [h]
    · rw [ingest_step_order h]
      unfold order_ingest
      rw [if_pos hverb, if_pos (Or.inl hdup)]
      simp [h]
  exact ⟨by rw [hstep]; rfl, by rw [hstep]; simp [logWarn], rfl⟩

theorem C9_duplicate_new_witness :
    (∃ r ∈ stA.db.customer, r.customer_id = evC9.key) ∧
    (ingest_step stA evC9).db = stA.db ∧
    (ingest_step stA evC9).log = stA.log ++ [LogEntry.customerWarn evC9.key] :=
  ⟨by decide,
   (C9_duplicate_new stA evC9 [] rfl (Or.inl ⟨rfl, by decide⟩)).1,
   by
     have h := (C9_duplicate_new stA evC9 [] rfl (Or.inl ⟨rfl, by decide⟩)).2.1
     simpa using h⟩

/-- Claim C2: the aggregation emits an LTV row for a customer exactly when
that customer has at least one SiteVisit row, a strictly positive number of
active weeks, and a valid numeric expenditure sum (equivalently, at least
one order); failing any condition, the customer has no row regardless of
its order data. -/
theorem C2_ltv_eligibility (db : DB) (cid : String)
    (hcust : cid ∈ db.customer.map (fun r => r.customer_id)) :
    (∃ r ∈ build_LTV_table db, r.customer_id = cid) ↔
      (visitsOf db cid ≠ [] ∧ (∃ w, NoOfWeeks db cid = some w ∧ 0 < w) ∧
        ordersOf db cid ≠ []) := by
  rw [mem_build_LTV_iff]
  exact (and_iff_right hcust).trans (computeLTV_isSome_iff db cid)

theorem C2_ltv_eligibility_witness :
    ("c" ∈ dbW.customer.map (fun r => r.customer_id)) ∧
    ((∃ r ∈ build_LTV_table dbW, r.customer_id = "c") ↔
      (visitsOf dbW "c" ≠ [] ∧ (∃ w, NoOfWeeks dbW "c" = some w ∧ 0 < w) ∧
        ordersOf dbW "c" ≠ [])) :=
  ⟨by decide, C2_ltv_eligibility dbW "c" (by decide)⟩

/-- Claim C5: a customer UPDATE writes exactly the non-empty payload fields
other than type, verb, key to the matching row, every other field keeping
its prior value; in particular NEW (last_name A, adr_city X) followed by an
UPDATE carrying only adr_city Y leaves last_name A and adr_city Y. -/
theorem C5_customer_partial_update (st : St) (e : Event)
    (htype : e.type = "CUSTOMER") (hverb : e.verb = "UPDATE") :
    (ingest_step st e).db.customer =
      st.db.customer.map
        (fun r => if r.customer_id = e.key then applyCustomerUpdate r e else r) ∧
    (∀ r, (applyCustomerUpdate r e).customer_id = r.customer_id) ∧
    (∀ r, (applyCustomerUpdate r e).last_name =
      if e.last_name = "" then r.last_name else e.last_name) ∧
    (∀ r, (applyCustomerUpdate r e).adr_city =
      if e.adr_city = "" then r.adr_city else e.adr_city) ∧
    (∀ r, (applyCustomerUpdate r e).adr_state =
      if e.adr_state = "" then r.adr_state else e.adr_state) ∧
    (∀ r, (applyCustomerUpdate r e).event_time =
      if e.event_time = none then r.event_time else e.event_time) ∧
    (processEvents initSt [evNewA, evUpdY]).db.customer.map
      (fun r => (r.last_name, r.adr_city)) = [("A", "Y")] := by
  refine ⟨?_, fun r => rfl, fun r => rfl, fun r => rfl, fun r => rfl, fun r => rfl,
    by decide⟩
  rw [ingest_step_customer htype]
  unfold customer_ingest
  rw [hverb, if_neg (by decide), if_pos rfl]
  by_cases hemp : custUpdAllEmpty e
  · rw [if_pos hemp]
    obtain ⟨h1, h2, h3, h4⟩ := hemp
    have hid : ∀ r : CustomerRow, applyCustomerUpdate r e = r := by
      intro r
      simp [applyCustomerUpdate, h1, h2, h3, h4]
    have hmap : ∀ l : List CustomerRow,
        l.map (fun r => if r.customer_id = e.key then applyCustomerUpdate r e else r)
          = l := by
      intro l
      induction l with
      | nil => rfl
      | cons a l ih => simp [hid, ih]
    exact (hmap st.db.customer).symm
  · rw [if_neg hemp]

theorem C5_customer_partial_update_witness :
    (ingest_step stA evUpdY).db.customer =
      stA.db.customer.map
        (fun r => if r.customer_id = evUpdY.key then applyCustomerUpdate r evUpdY else r) ∧
    (processEvents initSt [evNewA, evUpdY]).db.customer.map
      (fun r => (r.last_name, r.adr_city)) = [("A", "Y")] :=
  ⟨(C5_customer_partial_update stA evUpdY rfl rfl).1,
   (C5_customer_partial_update stA evUpdY rfl rfl).2.2.2.2.2.2⟩

/-- Claim C7: a Customer or Order UPDATE whose key matches no row of its
table leaves the entire store unchanged and causes no fatal error — the
sequential loop continues with the remaining events. -/
theorem C7_update_missing_key (st : St) (e : Event) (rest : List Event)
    (hverb : e.verb = "UPDATE")
    (htype : (e.type = "CUSTOMER" ∧ ∀ r ∈ st.db.customer, r.customer_id ≠ e.key) ∨
      (e.type = "ORDER" ∧ ∀ r ∈ st.db.orders, r.order_id ≠ e.key)) :
    (ingest_step st e).db = st.db ∧
    processEvents st (e :: rest) = processEvents (ingest_step st e) rest := by
  refine ⟨?_, rfl⟩
  rcases htype with ⟨h, hmiss⟩ | ⟨h, hmiss⟩
  · rw [ingest_step_customer h]
    unfold customer_ingest
    rw [hverb, if_neg (by decide), if_pos rfl]
    by_cases hemp : custUpdAllEmpty e
    · rw [if_pos hemp]; rfl
    · rw [if_neg hemp]
      have h1 : ∀ r ∈ st.db.customer,
          (if r.customer_id = e.key then applyCustomerUpdate r e else r) = r :=
        fun r hr => if_neg (hmiss r hr)
      have hmap : List.map
          (fun r => if r.customer_id = e.key then applyCustomerUpdate r e else r)
          st.db.customer = st.db.customer :=
        (List.map_congr_left h1).trans (List.map_id _)
      simp only [hmap]
  · rw [ingest_step_order h]
    unfold order_ingest
    rw [hverb, if_neg (by decide), if_pos rfl]
    by_cases hemp : orderUpdAllEmpty e
    · rw [if_pos hemp]; rfl
    · rw [if_neg hemp]
      have h1 : ∀ r ∈ st.db.orders,
          (if r.order_id = e.key then applyOrderUpdate r e else r) = r :=
        fun r hr => if_neg (hmiss r hr)
      have hmap : List.map
          (fun r => if r.order_id = e.key then applyOrderUpdate r e else r)
          st.db.orders = st.db.orders :=
        (List.map_congr_left h1).trans (List.map_id _)
      simp only [hmap]

theorem C7_update_missing_key_witness :
    (∀ r ∈ stA.db.customer, r.customer_id ≠ evC7.key) ∧
    (ingest_step stA evC7).db = stA.db :=
  ⟨by decide,
   (C7_update_missing_key stA evC7 [] rfl (Or.inl ⟨rfl, by decide⟩)).1⟩

/-- Claim C8: an Order UPDATE never modifies the customer_id column of the
targeted row — customer_id is excluded from the applied field set even when
present and non-empty in the payload — while the other non-empty
non-identity fields (event_time, total_amount) are still applied. -/
theorem C8_order_update_customer_id (st : St) (e : Event)
    (htype : e.type = "ORDER") (hverb : e.verb = "UPDATE") :
    (ingest_step st e).db.orders =
      st.db.orders.map
        (fun r => if r.order_id = e.key then applyOrderUpdate r e else r) ∧
    (∀ r, (applyOrderUpdate r e).customer_id = r.customer_id) ∧
    (∀ r, (applyOrderUpdate r e).order_id = r.order_id) ∧
    (∀ r, (applyOrderUpdate r e).event_time =
      if e.event_time = none then r.event_time else e.event_time) ∧
    (∀ r, (applyOrderUpdate r e).total_amount =
      if e.total_amount = none then r.total_amount else e.total_amount) := by
  refine ⟨?_, fun r => rfl, fun r => rfl, fun r => rfl, fun r => rfl⟩
  rw [ingest_step_order htype]
  unfold order_ingest
  rw [hverb, if_neg (by decide), if_pos rfl]
  by_cases hemp : orderUpdAllEmpty e
  · rw [if_pos hemp]
    obtain ⟨h1, h2⟩ := hemp
    have hid : ∀ r : OrderRow, applyOrderUpdate r e = r := by
      intro r
      simp [applyOrderUpdate, h1, h2]
    have hmap : ∀ l : List OrderRow,
        l.map (fun r => if r.order_id = e.key then applyOrderUpdate r e else r)
          = l := by
      intro l
      induction l with
      | nil => rfl
      | cons a l ih => simp [hid, ih]
    exact (hmap st.db.orders).symm
  · rw [if_neg hemp]

theorem C8_order_update_customer_id_witness :
    (ingest_step stB evC8).db.orders =
      stB.db.orders.map
        (fun r => if r.order_id = evC8.key then applyOrderUpdate r evC8 else r) ∧
    (applyOrderUpdate ⟨"o1", none, "c1", some 1⟩ evC8).customer_id = "c1" :=
  ⟨(C8_order_update_customer_id stB evC8 rfl rfl).1,
   (C8_order_update_customer_id stB evC8 rfl rfl).2.1 ⟨"o1", none, "c1", some 1⟩⟩

/-- Claim C10: a Customer or Order UPDATE in which every field other than
type, verb, key is empty modifies no row — the malformed statement it
produces is caught inside the ingester, a warning is logged, and processing
continues with the next event. -/
theorem C10_empty_update (st : St) (e : Event) (rest : List Event)
    (hverb : e.verb = "UPDATE")
    (htype : e.type = "CUSTOMER" ∨ e.type = "ORDER")
    (hempty : e.event_time = none ∧ e.last_name = "" ∧ e.adr_city = "" ∧
      e.adr_state = "" ∧ e.customer_id = "" ∧ e.total_amount = none) :
    (ingest_step st e).db = st.db ∧
    (ingest_step st e).log = st.log ++
      [if e.type = "CUSTOMER" then LogEntry.customerWarn e.key
       else LogEntry.orderWarn e.key] ∧
    processEvents st (e :: rest) = processEvents (ingest_step st e) rest := by
  obtain ⟨h1, h2, h3, h4, h5, h6⟩ := hempty
  have hstep : ingest_step st e = logWarn st
      (if e.type = "CUSTOMER" then LogEntry.customerWarn e.key
       else LogEntry.orderWarn e.key) := by
    rcases htype with h | h
    · rw [ingest_step_customer h]
      unfold customer_ingest
      rw [hverb, if_neg (by decide), if_pos rfl,
        if_pos (by unfold custUpdAllEmpty; exact ⟨h1, h2, h3, h4⟩)]
      simp [h]
    · rw [ingest_step_order h]
      unfold order_ingest
      rw [hverb, if_neg (by decide), if_pos rfl,
        if_pos (by unfold orderUpdAllEmpty; exact ⟨h1, h6⟩)]
      simp [h]
  exact ⟨by rw [hstep]; rfl, by rw [hstep]; simp [logWarn], rfl⟩

theorem C10_empty_update_witness :
    (ingest_step stB evC10).db = stB.db ∧
    (ingest_step stB evC10).log = stB.log ++ [LogEntry.orderWarn evC10.key] :=
  ⟨(C10_empty_update stB evC10 [] rfl (Or.inr rfl)
      ⟨rfl, rfl, rfl, rfl, rfl, rfl⟩).1,
   by
     have h := (C10_empty_update stB evC10 [] rfl (Or.inr rfl)
       ⟨rfl, rfl, rfl, rfl, rfl, rfl⟩).2.1
     simpa using h⟩

/-- Claim C3 (amended): for every customer that passes the eligibility
guard, the emitted row satisfies: the week count is the day distance between
the latest and earliest site-visit times divided by 7 (and it is zero
whenever the extremal visit timestamps coincide); expenditure per visit is
the expenditure sum divided by the visit count, truncated toward zero (the
Python 2 `int()`) before use in the CLV formula; visits per week is the
visit count divided by the week count; and CLV is 52 times the truncation
times visits per week times 10.  The original claim stated the narrowing
step as a floor; the code truncates toward zero, which differs on negative
per-visit expenditures (see the counterexample). -/
theorem C3_ltv_formulas (db : DB) (r : LTVRow) (h : r ∈ build_LTV_table db) :
    NoOfWeeks db r.customer_id = some r.NoOfWeeks ∧
    (∃ M m, aggMax (visitTimes db r.customer_id) = some (some M) ∧
      aggMin (visitTimes db r.customer_id) = some (some m) ∧
      r.NoOfWeeks = (M - m) / 7) ∧
    r.NoofVisits = NoOfVisits db r.customer_id ∧
    totalExpenditure db r.customer_id = some r.total_expenditure ∧
    r.ExpenditurePerVisit = r.total_expenditure / (r.NoofVisits : ℚ) ∧
    r.SiteVisitsPerWeek = (r.NoofVisits : ℚ) / r.NoOfWeeks ∧
    r.CLV = (52 * ((ratTrunc r.ExpenditurePerVisit : ℤ) : ℚ) *
      r.SiteVisitsPerWeek) * 10 ∧
    (∀ (db2 : DB) (cid2 : String) (M2 : ℚ),
      aggMax (visitTimes db2 cid2) = some (some M2) →
      aggMin (visitTimes db2 cid2) = some (some M2) →
      NoOfWeeks db2 cid2 = some 0) := by
  have hconst : ∀ (db2 : DB) (cid2 : String) (M2 : ℚ),
      aggMax (visitTimes db2 cid2) = some (some M2) →
      aggMin (visitTimes db2 cid2) = some (some M2) →
      NoOfWeeks db2 cid2 = some 0 := by
    intro db2 cid2 M2 hM hm
    unfold NoOfWeeks
    rw [hM, hm]
    norm_num
  unfold build_LTV_table at h
  rcases List.mem_filterMap.mp h with ⟨c, hc, hfc⟩
  have hcid : r.customer_id = c := computeLTV_customer_id hfc
  unfold computeLTV at hfc
  split at hfc
  · split at hfc
    next t wq hte hw =>
      cases hfc
      rcases noOfWeeks_some hw with ⟨M, m, hM, hm, hwq, hle⟩
      exact ⟨hw, ⟨M, m, hM, hm, hwq⟩, rfl, hte, rfl, rfl, rfl, hconst⟩
    next => exact absurd hfc (by simp)
  · exact absurd hfc (by simp)

/-- Claim C3 counterexample: on a store whose single eligible customer has a
negative expenditure per visit (-3/4), the code's CLV is 0 (truncation
toward zero), while the claim's formula with floor gives -1040. -/
theorem C3_counterexample :
    build_LTV_table dbNeg = [cexRow] ∧
    cexRow.CLV = 0 ∧
    (52 * ((⌊cexRow.ExpenditurePerVisit⌋ : ℤ) : ℚ) * cexRow.SiteVisitsPerWeek) * 10
      = -1040 ∧
    (0 : ℚ) ≠ -1040 := by
  refine ⟨?_, rfl, ?_, by norm_num⟩
  · norm_num [build_LTV_table, computeLTV, NoOfVisits, visitsOf, visitTimes, ordersOf,
      totalExpenditure, NoOfWeeks, aggMax, aggMin, maxStep, minStep, otLE, ratTrunc, dbNeg, cexRow,
      List.dedup, List.pwFilter, List.filter, List.filterMap, List.foldl, Rat.floor]
    simp
  · have hf : ⌊(-(3 / 4) : ℚ)⌋ = -1 := by
      rw [Int.floor_eq_iff]
      norm_num
    simp only [cexRow]
    rw [hf]
    norm_num

theorem C3_ltv_formulas_witness :
    rW ∈ build_LTV_table dbW ∧
    totalExpenditure dbW rW.customer_id = some rW.total_expenditure := by
  have hmem : rW ∈ build_LTV_table dbW := by
    have htab : build_LTV_table dbW = [rW] := by
      norm_num [build_LTV_table, computeLTV, NoOfVisits, visitsOf, visitTimes, ordersOf,
        totalExpenditure, NoOfWeeks, aggMax, aggMin, maxStep, minStep, otLE, ratTrunc, dbW, rW,
        List.dedup, List.pwFilter, List.filter, List.filterMap, List.foldl, Rat.floor]
      simp
    rw [htab]
    exact List.mem_singleton.mpr rfl
  exact ⟨hmem, (C3_ltv_formulas dbW rW hmem).2.2.2.1⟩

/-- Claim C6: for N at least 0, the Top-N selector returns an ordered
sequence of (customer_id, CLV) pairs of length min(N, eligible count),
sorted by CLV in non-increasing order; N = 0 gives the empty result, and N
at least the eligible count gives exactly one pair per eligible customer. -/
theorem C6_topn (n : ℕ) (ltv : List LTVRow) :
    (TopXSimpleLTVCustomers n ltv).length = min n ltv.length ∧
    (TopXSimpleLTVCustomers n ltv).Pairwise (fun p q => q.2 ≤ p.2) ∧
    (n = 0 → TopXSimpleLTVCustomers n ltv = []) ∧
    (ltv.length ≤ n →
      (TopXSimpleLTVCustomers n ltv).Perm
        (ltv.map (fun r => (r.customer_id, r.CLV)))) := by
  haveI hT : IsTotal LTVRow (fun a b => b.CLV ≤ a.CLV) :=
    ⟨fun a b => le_total b.CLV a.CLV⟩
  haveI hR : IsTrans LTVRow (fun a b => b.CLV ≤ a.CLV) :=
    ⟨fun _ _ _ hab hbc => le_trans hbc hab⟩
  refine ⟨?_, ?_, ?_, ?_⟩
  · unfold TopXSimpleLTVCustomers
    rw [List.length_take, List.length_map, List.length_insertionSort]
  · unfold TopXSimpleLTVCustomers
    have hs : List.Sorted (fun a b : LTVRow => b.CLV ≤ a.CLV)
        (ltv.insertionSort (fun a b => b.CLV ≤ a.CLV)) :=
      List.sorted_insertionSort _ _
    have hp : ((ltv.insertionSort (fun a b => b.CLV ≤ a.CLV)).map
        (fun r => (r.customer_id, r.CLV))).Pairwise (fun p q => q.2 ≤ p.2) := by
      rw [List.pairwise_map]
      exact hs
    exact List.Pairwise.sublist (List.take_sublist _ _) hp
  · intro hn
    subst hn
    rfl
  · intro hn
    unfold TopXSimpleLTVCustomers
    rw [List.take_of_length_le
      (by rw [List.length_map, List.length_insertionSort]; exact hn)]
    exact (List.perm_insertionSort _ _).map _

theorem C6_topn_witness :
    TopXSimpleLTVCustomers 0 [rW] = [] ∧
    (TopXSimpleLTVCustomers 3 [rW]).length = min 3 [rW].length :=
  ⟨(C6_topn 0 [rW]).2.2.1 rfl, (C6_topn 3 [rW]).1⟩

end Shutterfly
